import Mathlib

/-!
Shallow embedding of `src/native/src/context/mod.rs` (the `Context2D` 2D
drawing context of skia-canvas) and proofs about its state machine and
rendering pipeline.

Modelling conventions:
* Skia scalars (`f32`/`f64`) are modelled as `ℚ`.  None of the verified
  properties depend on floating-point rounding or NaN behaviour.
* The Skia `SkCanvas` recording target is modelled as a list of emitted
  `CanvasCmd`s; `PictureRecorder::recording_canvas()` always returns an
  active canvas in this model (the source always begins recording right
  after construction / reset, so the `if let Some(canvas)` guards succeed).
* Skia calls that return `Option` only because of engine-level allocation
  (`image_filters::*`, `finish_recording_as_picture`, `Path::op`) are
  modelled as always succeeding, with the constructor recorded.
* Rust panics (`Option::unwrap` on `None`) are modelled by the enclosing
  operation returning `none`.
* `Vec::push`/`Vec::pop` operate on the end of the vector; the stack is
  modelled as a `List` whose head is the most recently pushed snapshot.
-/

/-- A 2D point with rational coordinates (Skia `Point`). -/
structure Point where
  x : ℚ
  y : ℚ
deriving DecidableEq

/-- Skia `Point::is_zero`. -/
def Point.isZero (p : Point) : Prop := p.x = 0 ∧ p.y = 0

instance (p : Point) : Decidable p.isZero :=
  inferInstanceAs (Decidable (p.x = 0 ∧ p.y = 0))

/-- The affine part of a Skia `Matrix` (the source only ever installs affine
transforms: translations, concatenations of user transforms). -/
structure SkMatrix where
  scaleX : ℚ
  skewX  : ℚ
  transX : ℚ
  skewY  : ℚ
  scaleY : ℚ
  transY : ℚ
deriving DecidableEq

namespace SkMatrix

/-- `Matrix::new_identity`. -/
def identity : SkMatrix := ⟨1, 0, 0, 0, 1, 0⟩

/-- `Matrix::translate`. -/
def translate (p : Point) : SkMatrix := ⟨1, 0, p.x, 0, 1, p.y⟩

/-- Determinant of the affine matrix. -/
def det (m : SkMatrix) : ℚ := m.scaleX * m.scaleY - m.skewX * m.skewY

/-- `Matrix::map_point` / `map_xy`. -/
def mapPoint (m : SkMatrix) (p : Point) : Point :=
  ⟨m.scaleX * p.x + m.skewX * p.y + m.transX,
   m.skewY * p.x + m.scaleY * p.y + m.transY⟩

/-- `Matrix::invert`: `none` exactly when the matrix is singular. -/
def invert (m : SkMatrix) : Option SkMatrix :=
  if m.det = 0 then none
  else some
    { scaleX := m.scaleY / m.det
      skewX  := -m.skewX / m.det
      transX := (m.skewX * m.transY - m.scaleY * m.transX) / m.det
      skewY  := -m.skewY / m.det
      scaleY := m.scaleX / m.det
      transY := (m.skewY * m.transX - m.scaleX * m.transY) / m.det }

end SkMatrix

/-- Skia `Rect` (left, top, right, bottom). -/
structure Rect where
  left   : ℚ
  top    : ℚ
  right  : ℚ
  bottom : ℚ
deriving DecidableEq

namespace Rect

def width (r : Rect) : ℚ := r.right - r.left

def height (r : Rect) : ℚ := r.bottom - r.top

/-- `Rect::new_empty`. -/
def newEmpty : Rect := ⟨0, 0, 0, 0⟩

/-- `Rect::is_empty` (degenerate or inverted). -/
def isEmpty (r : Rect) : Bool := r.right ≤ r.left || r.bottom ≤ r.top

/-- `Rect::with_offset`. -/
def withOffset (r : Rect) (dx dy : ℚ) : Rect :=
  ⟨r.left + dx, r.top + dy, r.right + dx, r.bottom + dy⟩

/-- `Rect::join2`: union of two rects, ignoring empty operands. -/
def join2 (a b : Rect) : Rect :=
  if b.isEmpty then a
  else if a.isEmpty then b
  else ⟨min a.left b.left, min a.top b.top, max a.right b.right, max a.bottom b.bottom⟩

end Rect

/-- Skia `BlendMode` (the full set reachable from canvas composite operations). -/
inductive BlendMode where
  | clear | src | dst | srcOver | dstOver
  | srcIn | dstIn | srcOut | dstOut
  | srcATop | dstATop | xor | plus | modulate
  | screen | overlay | darken | lighten
  | colorDodge | colorBurn | hardLight | softLight
  | difference | exclusion | multiply
  | hue | saturation | color | luminosity
deriving DecidableEq

/-- Skia `PaintStyle`. -/
inductive PaintStyle where
  | fill | stroke | strokeAndFill
deriving DecidableEq

/-- Skia `FilterQuality`. -/
inductive FilterQuality where
  | none | low | medium | high
deriving DecidableEq

/-- Skia `path::FillType`. -/
inductive FillType where
  | winding | evenOdd | inverseWinding | inverseEvenOdd
deriving DecidableEq

/-- Skia `ClipOp`. -/
inductive ClipOp where
  | difference | intersect
deriving DecidableEq

/-- Skia `TileMode`. -/
inductive TileMode where
  | clamp | «repeat» | mirror | decal
deriving DecidableEq

/-- Skia `SrcRectConstraint`. -/
inductive SrcRectConstraint where
  | strict | fast
deriving DecidableEq

/-- `crate::utils::Baseline` (canvas text-baseline values). -/
inductive Baseline where
  | top | hanging | middle | alphabetic | ideographic | bottom
deriving DecidableEq

/-- Skia `Color`: packed 8-bit ARGB components. -/
structure Color where
  a : ℕ
  r : ℕ
  g : ℕ
  b : ℕ
deriving DecidableEq

/-- Skia `Color4f`: floating components, modelled rationally. -/
structure Color4f where
  r : ℚ
  g : ℚ
  b : ℚ
  a : ℚ
deriving DecidableEq

/-- `const BLACK: Color = Color::BLACK`. -/
def BLACK : Color := ⟨255, 0, 0, 0⟩

/-- `const TRANSPARENT: Color = Color::TRANSPARENT`. -/
def TRANSPARENT : Color := ⟨0, 0, 0, 0⟩

/-- `const GALLEY: f32 = 100_000.0`. -/
def GALLEY : ℚ := 100000

/-- `Color → Color4f` conversion (`color.into()`). -/
def Color.toColor4f (c : Color) : Color4f :=
  ⟨(c.r : ℚ) / 255, (c.g : ℚ) / 255, (c.b : ℚ) / 255, (c.a : ℚ) / 255⟩

/-- Round a `[0,1]` component to a byte with saturation (Skia `to_color`). -/
def ratToU8Round (q : ℚ) : ℕ :=
  (round (255 * max 0 (min 1 q))).toNat

/-- `Color4f::to_color`. -/
def Color4f.toColor (c : Color4f) : Color :=
  ⟨ratToU8Round c.a, ratToU8Round c.r, ratToU8Round c.g, ratToU8Round c.b⟩

/-- Rust `as u8` cast of a nonnegative float: truncate toward zero and
saturate to `[0, 255]`. -/
def ratAsU8 (q : ℚ) : ℕ :=
  if q < 0 then 0 else min 255 ⌊q⌋.toNat

/-- An image shader produced by a gradient or pattern host object. -/
inductive Shader where
  | gradientShader (id : ℕ)
  | patternShader (id : ℕ)
deriving DecidableEq

/-- `crate::gradient::CanvasGradient`: an opaque, host-owned handle. -/
structure CanvasGradient where
  id : ℕ
deriving DecidableEq

/-- `CanvasGradient::shader`. -/
def CanvasGradient.shader (g : CanvasGradient) : Shader := .gradientShader g.id

/-- `crate::pattern::CanvasPattern`: an opaque, host-owned handle. -/
structure CanvasPattern where
  id : ℕ
deriving DecidableEq

/-- `CanvasPattern::shader`. -/
def CanvasPattern.shader (p : CanvasPattern) : Shader := .patternShader p.id

/-- `Dye`: tagged union of resolved paint sources. -/
inductive Dye where
  | color (c : Color)
  | gradient (g : CanvasGradient)
  | pattern (p : CanvasPattern)
deriving DecidableEq

/-- A Skia `ColorFilter` as constructed by `set_filter`. -/
inductive SkColorFilter where
  | matrixRowMajor (m : List ℚ)
  | table (a r g b : Option (List ℕ))
deriving DecidableEq

/-- A Skia `ImageFilter` graph as constructed by this module.  The `input`
of each node is the prior chain (`None` = use the source bitmap). -/
inductive ImageFilter where
  | dropShadow (offset : Point) (sigma : Point) (c : Color) (input : Option ImageFilter)
  | dropShadowOnly (offset : Point) (sigma : Point) (c : Color) (input : Option ImageFilter)
  | blur (sigma : Point) (mode : TileMode) (input : Option ImageFilter)
  | colorFilter (cf : SkColorFilter) (input : Option ImageFilter)

/-- `color_filters::matrix_row_major`. -/
def colorFilters.matrixRowMajor (m : List ℚ) : SkColorFilter := .matrixRowMajor m

/-- `table_color_filter::from_argb`. -/
def tableColorFilter.fromArgb (a r g b : Option (List ℕ)) : SkColorFilter := .table a r g b

/-- `image_filters::drop_shadow` (engine allocation modelled as succeeding). -/
def imageFilters.dropShadow (offset : Point) (sigma : Point) (c : Color)
    (input : Option ImageFilter) : Option ImageFilter :=
  some (.dropShadow offset sigma c input)

/-- `image_filters::drop_shadow_only` (engine allocation modelled as succeeding). -/
def imageFilters.dropShadowOnly (offset : Point) (sigma : Point) (c : Color)
    (input : Option ImageFilter) : Option ImageFilter :=
  some (.dropShadowOnly offset sigma c input)

/-- `image_filters::blur` (engine allocation modelled as succeeding). -/
def imageFilters.blur (sigma : Point) (mode : TileMode)
    (input : Option ImageFilter) : Option ImageFilter :=
  some (.blur sigma mode input)

/-- `image_filters::color_filter` (engine allocation modelled as succeeding). -/
def imageFilters.colorFilter (cf : SkColorFilter)
    (input : Option ImageFilter) : Option ImageFilter :=
  some (.colorFilter cf input)

/-- The Skia `Paint` attributes this module reads or writes. -/
structure Paint where
  color : Color
  style : PaintStyle
  strokeWidth : ℚ
  strokeMiter : ℚ
  antiAlias : Bool
  blendMode : BlendMode
  filterQuality : FilterQuality
  imageFilter : Option ImageFilter
  shader : Option Shader

namespace Paint

/-- `Paint::default()` (Skia defaults). -/
def default : Paint :=
  { color := BLACK, style := .fill, strokeWidth := 0, strokeMiter := 4
    antiAlias := false, blendMode := .srcOver, filterQuality := .none
    imageFilter := none, shader := none }

/-- `Paint::set_alpha_f`: replace the color's alpha component. -/
def setAlphaF (p : Paint) (alpha : ℚ) : Paint :=
  { p with color := { p.color with a := ratToU8Round alpha } }

end Paint

/-- `Dye::mix_into`: resolve the dye onto a paint at the given global alpha. -/
def Dye.mixInto (dye : Dye) (paint : Paint) (alpha : ℚ) : Paint :=
  match dye with
  | .color c =>
      let c4 := c.toColor4f
      let c4 := { c4 with a := c4.a * alpha }
      { paint with color := c4.toColor }
  | .gradient g => ({ paint with shader := some g.shader }).setAlphaF alpha
  | .pattern p => ({ paint with shader := some p.shader }).setAlphaF alpha

/-- The geometry of a path, kept symbolically: atomic subpaths, baked-in
transforms, and boolean intersections produced by `Path::op`. -/
inductive PathGeom where
  | empty
  | prim (id : ℕ)
  | transform (m : SkMatrix) (g : PathGeom)
  | inter (a b : PathGeom)
deriving DecidableEq

/-- `Path::is_empty` on the symbolic geometry: no verbs.  An intersection is
conservatively empty when either operand is. -/
def PathGeom.isEmptyG : PathGeom → Bool
  | .empty => true
  | .prim _ => false
  | .transform _ g => g.isEmptyG
  | .inter a b => a.isEmptyG || b.isEmptyG

/-- A Skia `SkPath`: symbolic geometry plus the active fill rule. -/
structure SkPath where
  geom : PathGeom
  fillType : FillType
deriving DecidableEq

namespace SkPath

/-- `Path::new()`. -/
def new : SkPath := ⟨.empty, .winding⟩

/-- `Path::is_empty`. -/
def isEmpty (p : SkPath) : Bool := p.geom.isEmptyG

/-- `Path::set_fill_type` (functional update). -/
def setFillType (p : SkPath) (rule : FillType) : SkPath := { p with fillType := rule }

/-- `Path::with_transform`. -/
def withTransform (p : SkPath) (m : SkMatrix) : SkPath := { p with geom := .transform m p.geom }

/-- `PathOp` selector. -/
inductive PathOpKind where
  | intersect | union | difference
deriving DecidableEq

/-- `Path::op`: boolean combination of two paths.  Skia returns `None` only
on engine failure; the model always produces the symbolic combination. -/
def op (a b : SkPath) (k : PathOpKind) : Option SkPath :=
  match k with
  | .intersect => some ⟨.inter a.geom b.geom, a.fillType⟩
  | .union => some ⟨.inter a.geom b.geom, a.fillType⟩
  | .difference => some ⟨.inter a.geom b.geom, a.fillType⟩

end SkPath

/-- Interpretation of symbolic path geometry as a point set, given an
interpretation `sem` of the atomic subpaths. -/
def PathGeom.region (sem : ℕ → Set Point) : PathGeom → Set Point
  | .empty => ∅
  | .prim id => sem id
  | .transform m g => {q | ∃ q₀ ∈ g.region sem, m.mapPoint q₀ = q}
  | .inter a b => a.region sem ∩ b.region sem

/-- Skia `FontMetrics` (only the fields this module reads). -/
structure FontMetrics where
  ascent : ℚ
  descent : ℚ
deriving DecidableEq

/-- Skia `textlayout::TextStyle` (only the attributes this module touches:
font size, the metrics of the resolved font, and the foreground paint). -/
structure TextStyle where
  fontSize : ℚ
  metrics : FontMetrics
  foreground : Option Paint

/-- `TextStyle::new()`: Skia's default font size is 14. -/
def TextStyle.new : TextStyle :=
  { fontSize := 14, metrics := ⟨0, 0⟩, foreground := none }

/-- `TextStyle::set_font_size` (functional update). -/
def TextStyle.setFontSize (ts : TextStyle) (size : ℚ) : TextStyle :=
  { ts with fontSize := size }

/-- `TextStyle::set_foreground_color` (functional update). -/
def TextStyle.setForegroundColor (ts : TextStyle) (p : Option Paint) : TextStyle :=
  { ts with foreground := p }

/-- Skia `textlayout::ParagraphStyle` (only the attributes this module
touches: the line clamp and an opaque alignment payload). -/
structure ParagraphStyle where
  maxLines : Option ℕ
  align : ℕ

/-- `ParagraphStyle::new()`. -/
def ParagraphStyle.new : ParagraphStyle := { maxLines := none, align := 0 }

/-- `ParagraphStyle::set_max_lines` (functional update). -/
def ParagraphStyle.setMaxLines (gs : ParagraphStyle) (n : Option ℕ) : ParagraphStyle :=
  { gs with maxLines := n }

/-- One entry of `Paragraph::get_line_metrics`. -/
structure LineMetric where
  baseline : ℚ
  left : ℚ
  width : ℚ
  ascent : ℚ
  descent : ℚ
  startIndex : ℕ
  endExcludingWhitespaces : ℕ

/-- A laid-out `textlayout::Paragraph`. -/
structure Paragraph where
  lines : List LineMetric
  alphabeticBaseline : ℚ

/-- `Paragraph::line_number`. -/
def Paragraph.lineNumber (p : Paragraph) : ℕ := p.lines.length

/-- `Paragraph::get_line_metrics`. -/
def Paragraph.getLineMetrics (p : Paragraph) : List LineMetric := p.lines

/-- `crate::utils::FilterSpec`: one parsed CSS filter descriptor. -/
inductive FilterSpec where
  | shadow (offset : Point) (blur : ℚ) (c : Color)
  | plain (name : String) (value : ℚ)

/-- Skia `ImageInfo` (RGBA8888/unpremul as used by the pixel I/O paths). -/
structure ImageInfo where
  width : ℕ
  height : ℕ
deriving DecidableEq

/-- `ImageInfo::min_row_bytes` for RGBA8888 (4 bytes per pixel). -/
def ImageInfo.minRowBytes (info : ImageInfo) : ℕ := info.width * 4

/-- A raster image decoded from caller-supplied bytes. -/
structure ImageData where
  info : ImageInfo
  data : List ℕ
deriving DecidableEq

/-- `Image::from_raster_data`: fails when the dimensions are degenerate or
the buffer cannot cover `min_row_bytes * height`. -/
def imageFromRasterData (info : ImageInfo) (data : List ℕ) : Option ImageData :=
  if info.width = 0 ∨ info.height = 0 ∨ data.length < info.minRowBytes * info.height
  then none
  else some ⟨info, data⟩

/-- A drawing command recorded on an `SkCanvas`.  `drawPicture` carries the
replayed picture inline (its command list and cull rect). -/
inductive CanvasCmd where
  | save
  | restore
  | restoreToCount (depth : ℕ)
  | setMatrix (m : SkMatrix)
  | concat (m : SkMatrix)
  | clipPathCmd (p : SkPath) (op : ClipOp) (antialias : Bool)
  | drawPathCmd (p : SkPath) (paint : Paint)
  | drawRect (r : Rect) (paint : Paint)
  | drawPicture (pict : List CanvasCmd) (cull : Rect) (m : Option SkMatrix) (paint : Option Paint)
  | drawImageRect (img : ImageData) (src : Rect) (constraint : SrcRectConstraint)
      (dst : Rect) (paint : Paint)

/-- Does a recorded command actually draw content (as opposed to adjusting
the canvas's matrix/clip/save bookkeeping)? -/
def CanvasCmd.isDrawCmd : CanvasCmd → Bool
  | .drawPathCmd _ _ => true
  | .drawRect _ _ => true
  | .drawPicture _ _ _ _ => true
  | .drawImageRect _ _ _ _ _ => true
  | _ => false

/-- `State`: the value-type snapshot of all mutable drawing attributes at
one save-depth (field-for-field from the Rust struct). -/
structure State where
  clip : SkPath
  matrix : SkMatrix
  paint : Paint

  fill_style : Dye
  stroke_style : Dye
  shadow_blur : ℚ
  shadow_color : Color
  shadow_offset : Point

  stroke_width : ℚ
  line_dash_offset : ℚ
  line_dash_list : List ℚ

  global_alpha : ℚ
  global_composite_operation : BlendMode
  image_filter_quality : FilterQuality
  image_smoothing_enabled : Bool
  filter : String

  font : String
  font_variant : String
  font_features : List String
  char_style : TextStyle
  graf_style : ParagraphStyle
  text_baseline : Baseline
  text_tracking : ℤ
  text_wrap : Bool

/-- `State::default()`. -/
def State.default : State :=
  let paint :=
    { Paint.default with
        strokeMiter := 10, color := BLACK, antiAlias := true,
        strokeWidth := 1, style := .fill, filterQuality := .low }
  let graf_style := ParagraphStyle.new
  let char_style := TextStyle.new.setFontSize 10
  { clip := SkPath.new
    matrix := SkMatrix.identity

    paint
    stroke_style := .color BLACK
    fill_style := .color BLACK
    stroke_width := 1
    line_dash_offset := 0
    line_dash_list := []

    global_alpha := 1
    global_composite_operation := .srcOver
    image_filter_quality := .low
    image_smoothing_enabled := true
    filter := "none"

    shadow_blur := 0
    shadow_color := TRANSPARENT
    shadow_offset := ⟨0, 0⟩

    font := "10px sans-serif"
    font_variant := "normal"
    font_features := []
    char_style
    graf_style
    text_baseline := .alphabetic
    text_tracking := 0
    text_wrap := false }

/-- `Context2D`: the state stack, the current path, and the recording
surface (modelled as the list of commands recorded so far). -/
structure Context2D where
  bounds : Rect
  recording : List CanvasCmd
  state : State
  stack : List State
  path : SkPath

namespace Context2D

/-- `Context2D::new`: begin recording and `save()` once so that the canvas
starts at depth 2 (allowing unconditional `restore_to_count(1)` resets). -/
def new (bounds : Rect) : Context2D :=
  { bounds
    recording := [.save]
    state := State.default
    stack := []
    path := SkPath.new }

/-- `with_canvas`: record commands on the active recording canvas. -/
def emit (ctx : Context2D) (cmds : List CanvasCmd) : Context2D :=
  { ctx with recording := ctx.recording ++ cmds }

/-- `in_local_coordinates`: map a device point into user space through the
inverse transform, falling back to the identity when singular. -/
def inLocalCoordinates (ctx : Context2D) (x y : ℚ) : Point :=
  match ctx.state.matrix.invert with
  | some inverse => inverse.mapPoint ⟨x, y⟩
  | none => ⟨x, y⟩

/-- `reset_canvas`: strip the active clip and transform from the canvas
(but not from the state struct) by popping to the base save and re-saving. -/
def resetCanvas (ctx : Context2D) : Context2D :=
  ctx.emit [.restoreToCount 1, .save]

/-- `push` (the body of `save()`): push a clone of the current state. -/
def push (ctx : Context2D) : Context2D :=
  { ctx with stack := ctx.state :: ctx.stack }

/-- `pop` (the body of `restore()`): pop a state if the stack is non-empty
and re-derive the surface-level transform and clip from it. -/
def pop (ctx : Context2D) : Context2D :=
  match ctx.stack with
  | [] => ctx
  | old_state :: rest =>
      let ctx := { ctx with state := old_state, stack := rest }
      let ctx := ctx.resetCanvas
      ctx.emit ([.setMatrix old_state.matrix] ++
        (if old_state.clip.isEmpty then [] else [.clipPathCmd old_state.clip .intersect true]))

/-- `with_matrix`: mutate the current transform and immediately push the new
matrix to the render surface. -/
def withMatrix (ctx : Context2D) (f : SkMatrix → SkMatrix) : Context2D :=
  let ctx := { ctx with state := { ctx.state with matrix := f ctx.state.matrix } }
  ctx.emit [.setMatrix ctx.state.matrix]

end Context2D

namespace Context2D

/-- `color_with_alpha`: scale a color's alpha by the global alpha. -/
def colorWithAlpha (ctx : Context2D) (src : Color) : Color :=
  let c4 := src.toColor4f
  let c4 := { c4 with a := c4.a * ctx.state.global_alpha }
  c4.toColor

end Context2D

/-- `paint_for_fill`: clone the base paint and mix the fill dye into it at
the current global alpha. -/
def paintForFill (s : State) : Paint :=
  let paint := s.paint
  s.fill_style.mixInto paint s.global_alpha

/-- `paint_for_shadow`: when the shadow is visible (non-transparent color,
and not both zero blur and zero offset), clone the base paint and install a
shadow-only drop-shadow image filter on it; otherwise emit no shadow pass. -/
def paintForShadow (s : State) (base_paint : Paint) : Option Paint :=
  let sigma := s.shadow_blur / 2
  if s.shadow_color.a > 0 ∧ ¬(s.shadow_blur = 0 ∧ s.shadow_offset.isZero) then
    some (match imageFilters.dropShadowOnly ⟨0, 0⟩ ⟨sigma, sigma⟩ s.shadow_color none with
          | some filter =>
              -- this also knocks out any ctx.filter settings as a side-effect
              { base_paint with imageFilter := some filter }
          | none => base_paint)
  else none

namespace Context2D

/-- The shadow pass of `render_to_canvas`: when `paint_for_shadow` fires,
bracket the draw in a save/restore, set the matrix to the shadow-offset
translation, concatenate the state transform, and draw with the shadow
paint.  (The identical block appears in both arms of the source `match`.) -/
def shadowPass (ctx : Context2D) (base_paint : Paint)
    (f : Paint → List CanvasCmd) : List CanvasCmd :=
  match paintForShadow ctx.state base_paint with
  | some shadow_paint =>
      [.save, .setMatrix (SkMatrix.translate ctx.state.shadow_offset),
       .concat ctx.state.matrix] ++ f shadow_paint ++ [.restore]
  | none => []

/-- `render_to_canvas`: for the six regional blend modes, record the shadow
and the content into an offscreen layer at source-over blending, finish it
as a picture, and composite the picture onto the main surface in one
`draw_picture` under the identity matrix with the requested paint; for all
other modes draw the shadow pass and the content directly. -/
def renderToCanvas (ctx : Context2D) (paint : Paint)
    (f : Paint → List CanvasCmd) : Context2D :=
  match ctx.state.global_composite_operation with
  | .srcIn | .srcOut | .dstIn | .dstOut | .dstATop | .src =>
      -- for blend modes that affect regions of the canvas outside of the
      -- bounds of the object being drawn, create an intermediate picture
      -- before drawing to the canvas
      let layer_paint := { ctx.state.paint with blendMode := .srcOver }
      let layer_cmds :=
        ctx.shadowPass layer_paint f ++ [.setMatrix ctx.state.matrix] ++ f layer_paint
      -- transfer the picture contents to the canvas in a single operation
      ctx.emit [.save, .setMatrix SkMatrix.identity,
                .drawPicture layer_cmds ctx.bounds none (some paint), .restore]
  | _ =>
      ctx.emit (ctx.shadowPass paint f ++ f paint)

/-- `draw_path`: map the (already transform-baked) stored path back through
the inverse of the current transform, then render it.  The source calls
`invert().unwrap()`, which panics on a singular transform; the panic is
modelled as `none`. -/
def drawPath (ctx : Context2D) (paint : Paint) : Option Context2D :=
  match ctx.state.matrix.invert with
  | none => none
  | some inverse =>
      let path := ctx.path.withTransform inverse
      some (ctx.renderToCanvas paint (fun p => [.drawPathCmd path p]))

/-- The body of `clip_path` once the clip path is in hand: normalize its
fill rule, intersect it with any existing logical clip (or adopt it when
none exists), and apply it to the surface with intersect semantics and
anti-aliasing enabled. -/
def clipPathWith (ctx : Context2D) (p : SkPath) (rule : FillType) : Context2D :=
  let clip := p.setFillType rule
  let ctx :=
    if ctx.state.clip.isEmpty then
      { ctx with state := { ctx.state with clip := clip } }
    else
      match ctx.state.clip.op clip .intersect with
      | some new_clip => { ctx with state := { ctx.state with clip := new_clip } }
      | none => ctx
  ctx.emit [.clipPathCmd clip .intersect true]

/-- `clip_path`: clip by the supplied path, or by the current path pulled
back through the inverse transform (`invert().unwrap()` panics — modelled
as `none` — when the transform is singular). -/
def clipPath (ctx : Context2D) (path : Option SkPath) (rule : FillType) : Option Context2D :=
  match path with
  | some p => some (ctx.clipPathWith p rule)
  | none =>
      match ctx.state.matrix.invert with
      | some inverse => some (ctx.clipPathWith (ctx.path.withTransform inverse) rule)
      | none => none

/-- `blit_pixels`: decode the buffer, then (under a pushed frame and a reset
canvas) clear the destination rect and draw the source pixels into it with
default paints, restoring the frame afterwards. -/
def blitPixels (ctx : Context2D) (buffer : List ℕ) (info : ImageInfo)
    (src_rect dst_rect : Rect) : Context2D :=
  match imageFromRasterData info buffer with
  | none => ctx
  | some bitmap =>
      let ctx := ctx.push
      let ctx := ctx.resetCanvas
      let paint := Paint.default
      let eraser := { Paint.default with blendMode := .clear }
      let ctx := ctx.emit
        [.drawImageRect bitmap src_rect .strict dst_rect eraser,
         .drawImageRect bitmap src_rect .strict dst_rect paint]
      ctx.pop

end Context2D

/-- Floating-point trigonometry used by the `hue-rotate` filter arm
(`crate::utils::to_radians` composed with `f32::cos`/`f32::sin`).  Real
trigonometry is not rational, so the embedding passes these operations in
as an explicit collaborator. -/
structure FloatOps where
  cosDeg : ℚ → ℚ
  sinDeg : ℚ → ℚ

/-- One step of the `set_filter` fold: wrap the chain built so far in the
filter described by `next_filter` (matrices and formulæ from the CSS Filter
Effects spec, transcribed from the source). -/
def filterStep (ops : FloatOps) (chain : Option ImageFilter)
    (next_filter : FilterSpec) : Option ImageFilter :=
  match next_filter with
  | .shadow offset blur c =>
      let sigma := blur / 2
      imageFilters.dropShadow offset ⟨sigma, sigma⟩ c chain
  | .plain name value =>
      match name with
      | "blur" =>
          imageFilters.blur ⟨value, value⟩ .clamp chain
      | "brightness" =>
          let amt := max value 0
          let color_matrix := colorFilters.matrixRowMajor [
            amt, 0,   0,   0, 0,
            0,   amt, 0,   0, 0,
            0,   0,   amt, 0, 0,
            0,   0,   0,   1, 0]
          imageFilters.colorFilter color_matrix chain
      | "contrast" =>
          let amt := max value 0
          let ramp := (List.range 256).map (fun i =>
            let orig : ℚ := i
            ratAsU8 (127 + amt * orig - 127 * amt))
          let table := some ramp
          let color_table := tableColorFilter.fromArgb none table table table
          imageFilters.colorFilter color_table chain
      | "grayscale" =>
          let amt := 1 - min (max value 0) 1
          let color_matrix := colorFilters.matrixRowMajor [
            2126/10000 + 7874/10000 * amt, 7152/10000 - 7152/10000 * amt, 722/10000 - 722/10000 * amt, 0, 0,
            2126/10000 - 2126/10000 * amt, 7152/10000 + 2848/10000 * amt, 722/10000 - 722/10000 * amt, 0, 0,
            2126/10000 - 2126/10000 * amt, 7152/10000 - 7152/10000 * amt, 722/10000 + 9278/10000 * amt, 0, 0,
            0, 0, 0, 1, 0]
          imageFilters.colorFilter color_matrix chain
      | "invert" =>
          let amt := min (max value 0) 1
          let ramp := (List.range 256).map (fun i =>
            let orig : ℚ := i
            let inv : ℚ := 255 - orig
            ratAsU8 (orig * (1 - amt) + inv * amt))
          let table := some ramp
          let color_table := tableColorFilter.fromArgb none table table table
          imageFilters.colorFilter color_table chain
      | "opacity" =>
          let amt := min (max value 0) 1
          let color_matrix := colorFilters.matrixRowMajor [
            1, 0, 0, 0,   0,
            0, 1, 0, 0,   0,
            0, 0, 1, 0,   0,
            0, 0, 0, amt, 0]
          imageFilters.colorFilter color_matrix chain
      | "saturate" =>
          let amt := max value 0
          let color_matrix := colorFilters.matrixRowMajor [
            2126/10000 + 7874/10000 * amt, 7152/10000 - 7152/10000 * amt, 722/10000 - 722/10000 * amt, 0, 0,
            2126/10000 - 2126/10000 * amt, 7152/10000 + 2848/10000 * amt, 722/10000 - 722/10000 * amt, 0, 0,
            2126/10000 - 2126/10000 * amt, 7152/10000 - 7152/10000 * amt, 722/10000 + 9278/10000 * amt, 0, 0,
            0, 0, 0, 1, 0]
          imageFilters.colorFilter color_matrix chain
      | "sepia" =>
          let amt := 1 - min (max value 0) 1
          let color_matrix := colorFilters.matrixRowMajor [
            393/1000 + 607/1000 * amt, 769/1000 - 769/1000 * amt, 189/1000 - 189/1000 * amt, 0, 0,
            349/1000 - 349/1000 * amt, 686/1000 + 314/1000 * amt, 168/1000 - 168/1000 * amt, 0, 0,
            272/1000 - 272/1000 * amt, 534/1000 - 534/1000 * amt, 131/1000 + 869/1000 * amt, 0, 0,
            0, 0, 0, 1, 0]
          imageFilters.colorFilter color_matrix chain
      | "hue-rotate" =>
          let cos := ops.cosDeg value
          let sin := ops.sinDeg value
          let color_matrix := colorFilters.matrixRowMajor [
            213/1000 + cos*(787/1000) - sin*(213/1000), 715/1000 - cos*(715/1000) - sin*(715/1000), 72/1000 - cos*(72/1000) + sin*(928/1000), 0, 0,
            213/1000 - cos*(213/1000) + sin*(143/1000), 715/1000 + cos*(285/1000) + sin*(140/1000), 72/1000 - cos*(72/1000) - sin*(283/1000), 0, 0,
            213/1000 - cos*(213/1000) - sin*(787/1000), 715/1000 - cos*(715/1000) + sin*(715/1000), 72/1000 + cos*(928/1000) + sin*(72/1000), 0, 0,
            0, 0, 0, 1, 0]
          imageFilters.colorFilter color_matrix chain
      | _ => chain

namespace Context2D

/-- `set_filter`: fold the descriptor list left-to-right into one composed
image filter (each new filter taking the prior chain as input), install it
on the base paint, and remember the filter text. -/
def setFilter (ctx : Context2D) (ops : FloatOps) (filter_text : String)
    (specs : List FilterSpec) : Context2D :=
  let filter := specs.foldl (filterStep ops) none
  { ctx with state := { ctx.state with
      paint := { ctx.state.paint with imageFilter := filter },
      filter := filter_text } }

end Context2D

/-- The text collaborators of the context, passed in explicitly: the layout
engine (`ParagraphBuilder` + `FontLibrary`, which build and lay out a
paragraph from the styles, text and width) and the helpers from
`crate::typography` / `crate::utils` that live outside this module
(`get_baseline_offset`, `get_alignment_factor`, `string_idx_range`). -/
structure Typography where
  build : TextStyle → ParagraphStyle → String → ℚ → Paragraph
  baselineOffset : FontMetrics → Baseline → ℚ
  alignmentFactor : ParagraphStyle → ℚ
  stringIdxRange : String → ℕ → ℕ → ℕ × ℕ

namespace Context2D

/-- `typeset`: build a single-paragraph layout with the resolved paint as
the text foreground; with wrapping disabled, clamp to one line and collapse
newlines to spaces. -/
def typeset (ctx : Context2D) (ty : Typography) (text : String) (width : ℚ)
    (paint : Paint) : Paragraph :=
  let char_style := ctx.state.char_style.setForegroundColor (some paint)
  let (graf_style, text) :=
    match ctx.state.text_wrap with
    | true => (ctx.state.graf_style, text)
    | false => (ctx.state.graf_style.setMaxLines (some 1), text.replace "\n" " ")
  ty.build char_style graf_style text width

/-- `measure_text`: a whole-run metrics row followed by one row per line;
a zero-line paragraph yields a single degenerate row. -/
def measureText (ctx : Context2D) (ty : Typography) (text : String)
    (width : Option ℚ) : List (List ℚ) :=
  let paint := paintForFill ctx.state
  let paragraph := ctx.typeset ty text (width.getD GALLEY) paint

  let font_metrics := ctx.state.char_style.metrics
  let offset := ty.baselineOffset font_metrics ctx.state.text_baseline
  let hang := ty.baselineOffset font_metrics .hanging - offset
  let norm := ty.baselineOffset font_metrics .alphabetic - offset
  let ideo := ty.baselineOffset font_metrics .ideographic - offset
  let ascent := norm - font_metrics.ascent
  let descent := font_metrics.descent - norm
  let alignment := ty.alignmentFactor ctx.state.graf_style

  match paragraph.getLineMetrics with
  | [] =>
      -- paragraph.line_number() == 0
      [[0, 0, 0, 0, 0, ascent, descent, ascent, descent, hang, norm, ideo]]
  | first_line :: _ =>
      -- find the bounds and text-range for each individual line
      let origin := first_line.baseline
      let line_rects : List (Rect × (ℕ × ℕ) × ℚ) :=
        paragraph.getLineMetrics.map (fun line =>
          let baseline := line.baseline - origin
          let rect : Rect := ⟨line.left, baseline - line.ascent,
                              line.width - line.left, baseline + line.descent⟩
          let range := ty.stringIdxRange text line.startIndex line.endExcludingWhitespaces
          (rect.withOffset (alignment * rect.width) offset, range, baseline))
      -- take their union to find the bounds for the whole text run
      let folded := line_rects.foldl
        (fun (acc : Rect × ℕ) (entry : Rect × (ℕ × ℕ) × ℚ) =>
          (Rect.join2 acc.1 entry.1, entry.2.1.2)) (Rect.newEmpty, 0)
      let bounds := folded.1
      [[bounds.width, bounds.left, bounds.right, -bounds.top, bounds.bottom,
        ascent, descent, ascent, descent, hang, norm, ideo]] ++
      line_rects.map (fun entry =>
        [entry.1.left, entry.1.top, entry.1.width, entry.1.height,
         entry.2.2, (entry.2.1.1 : ℚ), (entry.2.1.2 : ℚ)])

end Context2D

/-! ## Claim-level vocabulary -/

/-- The six regional blend modes singled out by `render_to_canvas`. -/
def regionalModes : List BlendMode :=
  [.srcIn, .srcOut, .dstIn, .dstOut, .dstATop, .src]

/-- The effect names `set_filter` recognizes. -/
def knownFilterNames : List String :=
  ["blur", "brightness", "contrast", "grayscale", "invert",
   "opacity", "saturate", "sepia", "hue-rotate"]

namespace Context2D

/-- An arbitrary in-place mutation of the current `State` (what the style,
transform, shadow and font setters do between stack operations). -/
def mutate (ctx : Context2D) (f : State → State) : Context2D :=
  { ctx with state := f ctx.state }

/-- A run of `save` calls, each followed by an arbitrary mutation of the
current state. -/
def savePhase : Context2D → List (State → State) → Context2D
  | ctx, [] => ctx
  | ctx, f :: fs => savePhase (ctx.push.mutate f) fs

/-- A run of `restore` calls, each preceded by an arbitrary mutation of the
current state. -/
def restorePhase : Context2D → List (State → State) → Context2D
  | ctx, [] => ctx
  | ctx, g :: gs => restorePhase ((ctx.mutate g).pop) gs

end Context2D

/-- Two states that agree on every attribute other than the style state
ignored by `blit_pixels` (clip, transform, base paint with its blend mode
and image filter, global alpha, composite operation, shadow, and the filter
string). -/
def agreesOffStyle (s₁ s₂ : State) : Prop :=
  s₁.fill_style = s₂.fill_style ∧ s₁.stroke_style = s₂.stroke_style ∧
  s₁.stroke_width = s₂.stroke_width ∧ s₁.line_dash_offset = s₂.line_dash_offset ∧
  s₁.line_dash_list = s₂.line_dash_list ∧
  s₁.image_filter_quality = s₂.image_filter_quality ∧
  s₁.image_smoothing_enabled = s₂.image_smoothing_enabled ∧
  s₁.font = s₂.font ∧ s₁.font_variant = s₂.font_variant ∧
  s₁.font_features = s₂.font_features ∧
  s₁.text_baseline = s₂.text_baseline ∧ s₁.text_tracking = s₂.text_tracking ∧
  s₁.text_wrap = s₂.text_wrap

/-- The commands an operation appended to the recording. -/
def Context2D.emittedBy (ctx : Context2D) (run : Context2D → Context2D) : List CanvasCmd :=
  (run ctx).recording.drop ctx.recording.length

/-! ## Stack lemmas -/

lemma Context2D.push_stack (ctx : Context2D) : ctx.push.stack = ctx.state :: ctx.stack := rfl

lemma Context2D.mutate_stack (ctx : Context2D) (f : State → State) :
    (ctx.mutate f).stack = ctx.stack := rfl

lemma Context2D.pop_of_stack_cons (ctx : Context2D) (x : State) (rest : List State)
    (h : ctx.stack = x :: rest) : ctx.pop.state = x ∧ ctx.pop.stack = rest := by
  simp [Context2D.pop, h, Context2D.emit, Context2D.resetCanvas]

lemma Context2D.savePhase_stack (fs : List (State → State)) (ctx : Context2D) :
    ∃ l : List State, (ctx.savePhase fs).stack = l ++ ctx.stack ∧ l.length = fs.length := by
  induction fs generalizing ctx with
  | nil => exact ⟨[], rfl, rfl⟩
  | cons f fs ih =>
      obtain ⟨l, hl, hlen⟩ := ih (ctx.push.mutate f)
      refine ⟨l ++ [ctx.state], ?_, by simp [hlen]⟩
      simpa [Context2D.savePhase, Context2D.mutate, Context2D.push] using hl

lemma Context2D.restorePhase_peel (gs : List (State → State)) (ctx : Context2D)
    (l : List State) (s : State) (st : List State)
    (hstack : ctx.stack = l ++ s :: st) (hlen : gs.length = l.length + 1) :
    (ctx.restorePhase gs).state = s := by
  induction gs generalizing ctx l with
  | nil => simp at hlen
  | cons g gs ih =>
      cases l with
      | nil =>
          have hg : gs = [] := by
            simpa using hlen
          have hm : (ctx.mutate g).stack = s :: st := by
            simpa [Context2D.mutate_stack] using hstack
          obtain ⟨hs, _⟩ := Context2D.pop_of_stack_cons _ _ _ hm
          simpa [Context2D.restorePhase, hg] using hs
      | cons x l' =>
          have hm : (ctx.mutate g).stack = x :: (l' ++ s :: st) := by
            simpa [Context2D.mutate_stack] using hstack
          obtain ⟨_, hrest⟩ := Context2D.pop_of_stack_cons _ _ _ hm
          have := ih ((ctx.mutate g).pop) l' hrest (by simpa using hlen)
          simpa [Context2D.restorePhase] using this

/-- Claim C1: for every context, a run of `save` (push) calls followed by an
equal number of `restore` (pop) calls — with arbitrary mutations of the
current state interleaved after each push and before each pop — leaves the
current `State` equal by value to the state held immediately before the
sequence. -/
theorem save_restore_roundtrip (ctx : Context2D)
    (fs gs : List (State → State)) (hlen : fs.length = gs.length) :
    ((ctx.savePhase fs).restorePhase gs).state = ctx.state := by
  cases fs with
  | nil =>
      have : gs = [] := by simpa using hlen.symm
      simp [Context2D.savePhase, this, Context2D.restorePhase]
  | cons f fs' =>
      obtain ⟨l, hl, hllen⟩ := Context2D.savePhase_stack fs' (ctx.push.mutate f)
      have hstack : (ctx.savePhase (f :: fs')).stack = l ++ ctx.state :: ctx.stack := by
        simpa [Context2D.savePhase, Context2D.mutate, Context2D.push] using hl
      exact Context2D.restorePhase_peel gs _ l ctx.state ctx.stack hstack
        (by simp [← hlen, hllen])

/-- Witness for C1 at a concrete context, one save, one interleaved
mutation, and one restore. -/
theorem save_restore_roundtrip_witness :
    ([fun s => { s with global_alpha := 1/2 }] : List (State → State)).length =
      ([fun s => { s with shadow_blur := 3 }] : List (State → State)).length ∧
    (((Context2D.new ⟨0, 0, 300, 150⟩).savePhase
        [fun s => { s with global_alpha := 1/2 }]).restorePhase
        [fun s => { s with shadow_blur := 3 }]).state =
      (Context2D.new ⟨0, 0, 300, 150⟩).state :=
  ⟨rfl, save_restore_roundtrip (Context2D.new ⟨0, 0, 300, 150⟩)
    [fun s => { s with global_alpha := 1/2 }]
    [fun s => { s with shadow_blur := 3 }] rfl⟩

/-- Claim C4: `restore` (pop) on an empty stack is a no-op, not an error:
the state, the stack and the recording surface are all unchanged. -/
theorem restore_on_empty_stack_noop (ctx : Context2D) (h : ctx.stack = []) :
    ctx.pop = ctx := by
  simp [Context2D.pop, h]

/-- Witness for C4 at a freshly constructed context (whose stack is empty). -/
theorem restore_on_empty_stack_noop_witness :
    (Context2D.new ⟨0, 0, 300, 150⟩).stack = [] ∧
    (Context2D.new ⟨0, 0, 300, 150⟩).pop = Context2D.new ⟨0, 0, 300, 150⟩ :=
  ⟨rfl, restore_on_empty_stack_noop (Context2D.new ⟨0, 0, 300, 150⟩) rfl⟩

/-- Claim C6: a shadow pass is emitted (`paint_for_shadow` returns `some`)
if and only if the shadow color's alpha is non-zero and it is not the case
that both the shadow blur and the shadow offset are zero. -/
theorem shadow_pass_iff (s : State) (base_paint : Paint) :
    (paintForShadow s base_paint).isSome ↔
      (s.shadow_color.a > 0 ∧ ¬(s.shadow_blur = 0 ∧ s.shadow_offset.isZero)) := by
  by_cases h : s.shadow_color.a > 0 ∧ ¬(s.shadow_blur = 0 ∧ s.shadow_offset.isZero) <;>
    simp [paintForShadow, h, imageFilters.dropShadowOnly]

/-- Claim C10: whenever a shadow pass is emitted, the shadow paint is the
base paint with its image filter unconditionally replaced by a shadow-only
drop-shadow filter (zero offset, sigma = blur/2, the shadow color, no
input chain) — so the CSS filter chain installed by `set_filter` on the
base paint is never applied during the shadow pass. -/
theorem shadow_paint_replaces_filter (s : State) (base_paint shadow_paint : Paint)
    (h : paintForShadow s base_paint = some shadow_paint) :
    shadow_paint =
      { base_paint with
          imageFilter := some (.dropShadowOnly ⟨0, 0⟩
            ⟨s.shadow_blur / 2, s.shadow_blur / 2⟩ s.shadow_color none) } := by
  simp [paintForShadow, imageFilters.dropShadowOnly] at h
  exact h.2.symm

/-- A concrete state with a visible shadow (opaque black, blur 2). -/
def c10State : State :=
  { State.default with shadow_color := ⟨255, 0, 0, 0⟩, shadow_blur := 2 }

/-- A concrete base paint carrying a CSS blur filter chain. -/
def c10Base : Paint :=
  { Paint.default with imageFilter := some (.blur ⟨5, 5⟩ .clamp none) }

/-- The shadow paint `paint_for_shadow` produces for `c10State`/`c10Base`:
the blur chain is knocked out by the shadow-only filter. -/
def c10Shadow : Paint :=
  { Paint.default with
      imageFilter := some (.dropShadowOnly ⟨0, 0⟩ ⟨1, 1⟩ ⟨255, 0, 0, 0⟩ none) }

/-- Witness for C10: at the concrete state and base paint, the shadow paint
drops the base paint's CSS blur chain for the shadow-only filter. -/
theorem shadow_paint_replaces_filter_witness :
    paintForShadow c10State c10Base = some c10Shadow ∧
    c10Shadow =
      { c10Base with
          imageFilter := some (.dropShadowOnly ⟨0, 0⟩
            ⟨c10State.shadow_blur / 2, c10State.shadow_blur / 2⟩
            c10State.shadow_color none) } := by
  have h : paintForShadow c10State c10Base = some c10Shadow := by
    simp [paintForShadow, c10State, c10Base, c10Shadow, imageFilters.dropShadowOnly,
          Point.isZero, State.default, Paint.default]
  exact ⟨h, shadow_paint_replaces_filter c10State c10Base c10Shadow h⟩

/-- A concrete context whose current transform is singular (the zero
matrix). -/
def c5Ctx : Context2D :=
  { Context2D.new ⟨0, 0, 300, 150⟩ with
      state := { State.default with matrix := ⟨0, 0, 0, 0, 0, 0⟩ } }

/-- Counterexample to C5 as stated: at a concrete context with a singular
transform, `draw_path` does not complete — it hits `invert().unwrap()`,
which panics (modelled as `none`), instead of silently treating the
transform as identity. -/
theorem draw_path_singular_cex :
    c5Ctx.state.matrix.invert = none ∧ c5Ctx.drawPath Paint.default = none := by
  have h : c5Ctx.state.matrix.invert = none := by
    simp [c5Ctx, SkMatrix.invert, SkMatrix.det]
  exact ⟨h, by simp [Context2D.drawPath, h]⟩

/-- Amended C5: when the current transform is singular, `draw_path` fails
fatally (the `unwrap` panic, modelled as `none`) rather than drawing; only
the point-query helper `in_local_coordinates` falls back to the identity
mapping. -/
theorem draw_path_singular_behavior (ctx : Context2D) (paint : Paint) (x y : ℚ)
    (h : ctx.state.matrix.invert = none) :
    ctx.drawPath paint = none ∧ ctx.inLocalCoordinates x y = ⟨x, y⟩ := by
  simp [Context2D.drawPath, Context2D.inLocalCoordinates, h]

/-- Witness for the amended C5 at the concrete singular context. -/
theorem draw_path_singular_behavior_witness :
    c5Ctx.state.matrix.invert = none ∧
    (c5Ctx.drawPath Paint.default = none ∧ c5Ctx.inLocalCoordinates 3 4 = ⟨3, 4⟩) :=
  ⟨by simp [c5Ctx, SkMatrix.invert, SkMatrix.det],
   draw_path_singular_behavior c5Ctx Paint.default 3 4
     (by simp [c5Ctx, SkMatrix.invert, SkMatrix.det])⟩

/-- Claim C2: `render_to_canvas` isolates a draw in an offscreen layer
exactly when the current composite operation is one of the six regional
blend modes.  In that case the shadow pass (if any) and the content are
recorded into a layer whose paint blends at source-over, and the finished
picture is composited onto the main surface by a single `draw_picture`
under the identity matrix with the requested paint (which carries the
blend mode and alpha) culled at canvas bounds; for every other mode the
shadow pass and the content are drawn directly with no layer isolation. -/
theorem render_layer_isolation (ctx : Context2D) (paint : Paint)
    (f : Paint → List CanvasCmd) :
    (ctx.renderToCanvas paint f).recording =
      ctx.recording ++
        (if ctx.state.global_composite_operation ∈ regionalModes then
          [.save, .setMatrix SkMatrix.identity,
           .drawPicture
             (ctx.shadowPass { ctx.state.paint with blendMode := .srcOver } f ++
              [.setMatrix ctx.state.matrix] ++
              f { ctx.state.paint with blendMode := .srcOver })
             ctx.bounds none (some paint),
           .restore]
        else
          ctx.shadowPass paint f ++ f paint) := by
  cases h : ctx.state.global_composite_operation <;>
    simp [Context2D.renderToCanvas, Context2D.emit, regionalModes, h]

/-- What `clip_path` does to the state clip and the surface, as a function
of whether a logical clip already exists. -/
lemma Context2D.clipPathWith_spec (ctx : Context2D) (p : SkPath) (rule : FillType) :
    (ctx.clipPathWith p rule).recording =
        ctx.recording ++ [.clipPathCmd (p.setFillType rule) .intersect true] ∧
    (ctx.state.clip.isEmpty = true →
        (ctx.clipPathWith p rule).state.clip = p.setFillType rule) ∧
    (ctx.state.clip.isEmpty = false →
        (ctx.clipPathWith p rule).state.clip =
          ⟨.inter ctx.state.clip.geom (p.setFillType rule).geom,
           ctx.state.clip.fillType⟩) := by
  by_cases hEmpty : ctx.state.clip.isEmpty <;>
    simp [Context2D.clipPathWith, SkPath.op, hEmpty, Context2D.emit, SkPath.setFillType]

/-- Claim C3: every successful `clip_path` call applies the supplied path
(normalized to the fill rule) to the surface with intersect semantics and
anti-aliasing enabled, and updates the logical clip monotonically: the
supplied path becomes the clip when none existed, and otherwise the new
logical clip is the intersection of the previous clip with the supplied
path — its region (under every interpretation of the path atoms) is
contained in the previous clip's region, never a non-intersected
replacement. -/
theorem clip_path_monotonic (ctx : Context2D) (path : Option SkPath) (rule : FillType)
    (ctx' : Context2D) (sem : ℕ → Set Point)
    (h : ctx.clipPath path rule = some ctx') :
    ∃ clip : SkPath,
      clip.fillType = rule ∧
      ctx'.recording = ctx.recording ++ [.clipPathCmd clip .intersect true] ∧
      (ctx.state.clip.isEmpty = true → ctx'.state.clip = clip) ∧
      (ctx.state.clip.isEmpty = false →
        ctx'.state.clip.geom = .inter ctx.state.clip.geom clip.geom ∧
        ctx'.state.clip.geom.region sem =
          ctx.state.clip.geom.region sem ∩ clip.geom.region sem ∧
        ctx'.state.clip.geom.region sem ⊆ ctx.state.clip.geom.region sem) := by
  have main : ∀ p : SkPath, ctx' = ctx.clipPathWith p rule →
      ∃ clip : SkPath,
        clip.fillType = rule ∧
        ctx'.recording = ctx.recording ++ [.clipPathCmd clip .intersect true] ∧
        (ctx.state.clip.isEmpty = true → ctx'.state.clip = clip) ∧
        (ctx.state.clip.isEmpty = false →
          ctx'.state.clip.geom = .inter ctx.state.clip.geom clip.geom ∧
          ctx'.state.clip.geom.region sem =
            ctx.state.clip.geom.region sem ∩ clip.geom.region sem ∧
          ctx'.state.clip.geom.region sem ⊆ ctx.state.clip.geom.region sem) := by
    intro p hp
    obtain ⟨hrec, hadopt, hinter⟩ := Context2D.clipPathWith_spec ctx p rule
    refine ⟨p.setFillType rule, rfl, hp ▸ hrec, fun he => hp ▸ hadopt he, fun he => ?_⟩
    have hclip := hinter he
    refine ⟨by rw [hp, hclip], by rw [hp, hclip, PathGeom.region], ?_⟩
    rw [hp, hclip]
    exact fun q hq => hq.1
  cases path with
  | some p =>
      have hp : ctx' = ctx.clipPathWith p rule := by
        simpa [Context2D.clipPath] using h.symm
      exact main p hp
  | none =>
      cases hinv : ctx.state.matrix.invert with
      | none => simp [Context2D.clipPath, hinv] at h
      | some inverse =>
          have hp : ctx' = ctx.clipPathWith (ctx.path.withTransform inverse) rule := by
            simpa [Context2D.clipPath, hinv] using h.symm
          exact main _ hp

/-- Witness for C3: clipping a fresh context (no logical clip) by an atomic
path under the even-odd rule. -/
theorem clip_path_monotonic_witness :
    (Context2D.new ⟨0, 0, 300, 150⟩).clipPath (some ⟨.prim 0, .winding⟩) .evenOdd =
      some ((Context2D.new ⟨0, 0, 300, 150⟩).clipPathWith ⟨.prim 0, .winding⟩ .evenOdd) ∧
    (∃ clip : SkPath,
      clip.fillType = .evenOdd ∧
      ((Context2D.new ⟨0, 0, 300, 150⟩).clipPathWith ⟨.prim 0, .winding⟩ .evenOdd).recording =
        (Context2D.new ⟨0, 0, 300, 150⟩).recording ++ [.clipPathCmd clip .intersect true] ∧
      ((Context2D.new ⟨0, 0, 300, 150⟩).state.clip.isEmpty = true →
        ((Context2D.new ⟨0, 0, 300, 150⟩).clipPathWith ⟨.prim 0, .winding⟩ .evenOdd).state.clip = clip) ∧
      ((Context2D.new ⟨0, 0, 300, 150⟩).state.clip.isEmpty = false →
        ((Context2D.new ⟨0, 0, 300, 150⟩).clipPathWith ⟨.prim 0, .winding⟩ .evenOdd).state.clip.geom =
          .inter (Context2D.new ⟨0, 0, 300, 150⟩).state.clip.geom clip.geom ∧
        ((Context2D.new ⟨0, 0, 300, 150⟩).clipPathWith ⟨.prim 0, .winding⟩ .evenOdd).state.clip.geom.region
            (fun _ => (∅ : Set Point)) =
          (Context2D.new ⟨0, 0, 300, 150⟩).state.clip.geom.region (fun _ => (∅ : Set Point)) ∩
            clip.geom.region (fun _ => (∅ : Set Point)) ∧
        ((Context2D.new ⟨0, 0, 300, 150⟩).clipPathWith ⟨.prim 0, .winding⟩ .evenOdd).state.clip.geom.region
            (fun _ => (∅ : Set Point)) ⊆
          (Context2D.new ⟨0, 0, 300, 150⟩).state.clip.geom.region (fun _ => (∅ : Set Point)))) :=
  ⟨rfl, clip_path_monotonic (Context2D.new ⟨0, 0, 300, 150⟩) (some ⟨.prim 0, .winding⟩)
    .evenOdd _ (fun _ => (∅ : Set Point)) rfl⟩

/-- A named effect whose name is none of the nine recognized ones leaves
the filter chain unchanged. -/
lemma filterStep_unknown (ops : FloatOps) (chain : Option ImageFilter)
    (name : String) (value : ℚ) (h : name ∉ knownFilterNames) :
    filterStep ops chain (.plain name value) = chain := by
  simp only [filterStep]
  split <;> simp_all [knownFilterNames]

/-- Claim C7: `set_filter` treats an unknown effect name as a no-op — the
chain built so far passes through unchanged and no error is raised — while
the remaining descriptors still apply in list order: folding the list with
the unknown descriptor removed gives the identical context. -/
theorem set_filter_unknown_noop (ctx : Context2D) (ops : FloatOps)
    (filter_text : String) (pre post : List FilterSpec) (name : String) (value : ℚ)
    (h : name ∉ knownFilterNames) :
    ctx.setFilter ops filter_text (pre ++ FilterSpec.plain name value :: post) =
      ctx.setFilter ops filter_text (pre ++ post) := by
  have hstep : ∀ chain, filterStep ops chain (.plain name value) = chain :=
    fun chain => filterStep_unknown ops chain name value h
  simp [Context2D.setFilter, List.foldl_append, List.foldl_cons, hstep]

/-- Witness for C7: a `sparkle(0.5)` descriptor between a blur and a
brightness descriptor changes nothing. -/
theorem set_filter_unknown_noop_witness :
    "sparkle" ∉ knownFilterNames ∧
    (Context2D.new ⟨0, 0, 300, 150⟩).setFilter ⟨fun _ => 0, fun _ => 0⟩ "t"
        ([.plain "blur" 5] ++ FilterSpec.plain "sparkle" (1/2) :: [.plain "brightness" 2]) =
      (Context2D.new ⟨0, 0, 300, 150⟩).setFilter ⟨fun _ => 0, fun _ => 0⟩ "t"
        ([.plain "blur" 5] ++ [.plain "brightness" 2]) :=
  ⟨by decide, set_filter_unknown_noop (Context2D.new ⟨0, 0, 300, 150⟩)
    ⟨fun _ => 0, fun _ => 0⟩ "t" [.plain "blur" 5] [.plain "brightness" 2]
    "sparkle" (1/2) (by decide)⟩

/-- The drawing commands (as opposed to matrix/clip/save bookkeeping) that
one `blit_pixels` call appends to the recording. -/
def Context2D.blitDrawCmds (ctx : Context2D) (buffer : List ℕ) (info : ImageInfo)
    (src_rect dst_rect : Rect) : List CanvasCmd :=
  ((ctx.blitPixels buffer info src_rect dst_rect).recording.drop
      ctx.recording.length).filter CanvasCmd.isDrawCmd

/-- Evaluation of `blitDrawCmds`: independent of the context's state, the
draws are exactly a clear of the destination rect followed by a draw of the
source pixels with a default paint (or nothing when decoding fails). -/
lemma Context2D.blitDrawCmds_spec (ctx : Context2D) (buffer : List ℕ)
    (info : ImageInfo) (src_rect dst_rect : Rect) :
    ctx.blitDrawCmds buffer info src_rect dst_rect =
      match imageFromRasterData info buffer with
      | none => []
      | some bitmap =>
          [.drawImageRect bitmap src_rect .strict dst_rect
             { Paint.default with blendMode := .clear },
           .drawImageRect bitmap src_rect .strict dst_rect Paint.default] := by
  cases himg : imageFromRasterData info buffer with
  | none =>
      simp [Context2D.blitDrawCmds, Context2D.blitPixels, himg, List.drop_length]
  | some bitmap =>
      simp [Context2D.blitDrawCmds, Context2D.blitPixels, himg, Context2D.push,
            Context2D.resetCanvas, Context2D.emit, Context2D.pop, List.drop_left,
            CanvasCmd.isDrawCmd, List.filter_append]

/-- Claim C8: `blit_pixels` ignores all active style state — for any two
contexts whose states agree off the style attributes (clip, transform,
base paint, alpha, blend, shadow, filter), the same buffer/info/rect
arguments produce identical drawing commands, namely a clear of the
destination rectangle followed by a draw of the source pixels into it with
a default paint. -/
theorem blit_pixels_ignores_style (ctx₁ ctx₂ : Context2D) (buffer : List ℕ)
    (info : ImageInfo) (src_rect dst_rect : Rect)
    (h : agreesOffStyle ctx₁.state ctx₂.state) :
    ctx₁.blitDrawCmds buffer info src_rect dst_rect =
      ctx₂.blitDrawCmds buffer info src_rect dst_rect ∧
    (∀ bitmap, imageFromRasterData info buffer = some bitmap →
      ctx₁.blitDrawCmds buffer info src_rect dst_rect =
        [.drawImageRect bitmap src_rect .strict dst_rect
           { Paint.default with blendMode := .clear },
         .drawImageRect bitmap src_rect .strict dst_rect Paint.default]) := by
  constructor
  · rw [Context2D.blitDrawCmds_spec, Context2D.blitDrawCmds_spec]
  · intro bitmap hbm
    rw [Context2D.blitDrawCmds_spec, hbm]

/-- A context with default state. -/
def c8Ctx1 : Context2D := Context2D.new ⟨0, 0, 300, 150⟩

/-- A context differing from `c8Ctx1` only in style state: clip, transform,
base paint (blend mode and image filter), global alpha, composite
operation, shadow, and the filter string. -/
def c8Ctx2 : Context2D :=
  { Context2D.new ⟨0, 0, 300, 150⟩ with
      state := { State.default with
        clip := ⟨.prim 7, .winding⟩
        matrix := SkMatrix.translate ⟨10, 20⟩
        paint := { State.default.paint with
                     blendMode := .multiply
                     imageFilter := some (.blur ⟨5, 5⟩ .clamp none) }
        global_alpha := 1/2
        global_composite_operation := .multiply
        shadow_color := ⟨255, 0, 0, 0⟩
        shadow_blur := 4
        shadow_offset := ⟨1, 1⟩
        filter := "blur(5px)" } }

/-- A 1×1 RGBA bitmap for the C8 witness. -/
def c8Info : ImageInfo := ⟨1, 1⟩

/-- Witness for C8: the two style-divergent contexts emit the same two
drawing commands (clear, then default-paint draw) for the same blit. -/
theorem blit_pixels_ignores_style_witness :
    agreesOffStyle c8Ctx1.state c8Ctx2.state ∧
    c8Ctx1.blitDrawCmds [1, 2, 3, 4] c8Info ⟨0, 0, 1, 1⟩ ⟨5, 5, 6, 6⟩ =
      c8Ctx2.blitDrawCmds [1, 2, 3, 4] c8Info ⟨0, 0, 1, 1⟩ ⟨5, 5, 6, 6⟩ ∧
    c8Ctx1.blitDrawCmds [1, 2, 3, 4] c8Info ⟨0, 0, 1, 1⟩ ⟨5, 5, 6, 6⟩ =
      [.drawImageRect ⟨c8Info, [1, 2, 3, 4]⟩ ⟨0, 0, 1, 1⟩ .strict ⟨5, 5, 6, 6⟩
         { Paint.default with blendMode := .clear },
       .drawImageRect ⟨c8Info, [1, 2, 3, 4]⟩ ⟨0, 0, 1, 1⟩ .strict ⟨5, 5, 6, 6⟩
         Paint.default] := by
  have hagree : agreesOffStyle c8Ctx1.state c8Ctx2.state :=
    ⟨rfl, rfl, rfl, rfl, rfl, rfl, rfl, rfl, rfl, rfl, rfl, rfl, rfl⟩
  have hdecode : imageFromRasterData c8Info [1, 2, 3, 4] = some ⟨c8Info, [1, 2, 3, 4]⟩ := by
    simp [imageFromRasterData, c8Info, ImageInfo.minRowBytes]
  have hmain := blit_pixels_ignores_style c8Ctx1 c8Ctx2 [1, 2, 3, 4] c8Info
    ⟨0, 0, 1, 1⟩ ⟨5, 5, 6, 6⟩ hagree
  exact ⟨hagree, hmain.1, hmain.2 ⟨c8Info, [1, 2, 3, 4]⟩ hdecode⟩

/-- Claim C9: whenever typesetting yields a zero-line paragraph,
`measure_text` returns exactly one metrics row whose first five fields
(width and the four bounding-box edges) are zero, the remaining fields
being the baseline-derived ascent/descent and baseline-offset figures
computed from the current font metrics and text baseline. -/
theorem measure_text_zero_lines (ctx : Context2D) (ty : Typography) (text : String)
    (width : Option ℚ)
    (h : (ctx.typeset ty text (width.getD GALLEY) (paintForFill ctx.state)).lineNumber = 0) :
    ctx.measureText ty text width =
      (let fm := ctx.state.char_style.metrics
       let offset := ty.baselineOffset fm ctx.state.text_baseline
       let hang := ty.baselineOffset fm .hanging - offset
       let norm := ty.baselineOffset fm .alphabetic - offset
       let ideo := ty.baselineOffset fm .ideographic - offset
       let ascent := norm - fm.ascent
       let descent := fm.descent - norm
       [[0, 0, 0, 0, 0, ascent, descent, ascent, descent, hang, norm, ideo]]) := by
  have hempty : (ctx.typeset ty text (width.getD GALLEY) (paintForFill ctx.state)).getLineMetrics = [] := by
    rw [Paragraph.getLineMetrics]
    exact List.length_eq_zero.mp h
  simp [Context2D.measureText, hempty]

/-- A layout engine that produces an empty paragraph for every input, with
all typography helpers returning zero. -/
def c9Ty : Typography :=
  ⟨fun _ _ _ _ => ⟨[], 0⟩, fun _ _ => 0, fun _ => 0, fun _ a b => (a, b)⟩

/-- Witness for C9: measuring the empty string on a fresh context with the
zero-line engine yields the single degenerate row. -/
theorem measure_text_zero_lines_witness :
    ((Context2D.new ⟨0, 0, 300, 150⟩).typeset c9Ty "" ((none : Option ℚ).getD GALLEY)
        (paintForFill (Context2D.new ⟨0, 0, 300, 150⟩).state)).lineNumber = 0 ∧
    (Context2D.new ⟨0, 0, 300, 150⟩).measureText c9Ty "" none =
      [[0, 0, 0, 0, 0, 0, 0, 0, 0, 0, 0, 0]] := by
  have happ := measure_text_zero_lines (Context2D.new ⟨0, 0, 300, 150⟩) c9Ty "" none rfl
  exact ⟨rfl, by simpa [c9Ty, Context2D.new, State.default, TextStyle.new,
    TextStyle.setFontSize] using happ⟩
